import Mathlib

/-!
Shallow embedding of the `graph-flow` workflow engine
(crate `graph-flow`: `context.rs`, `task.rs`, `graph.rs`, `storage.rs`)
together with proofs of the specification claims about it.

Conventions of the embedding:
* `serde_json::Value` is modelled by the inductive `Value` (JSON trees).
* `DateTime<Utc>` timestamps are modelled by `Int`; `Utc::now()` becomes an
  explicit argument of the operations that call it.
* Asynchronous, interiorly-mutable code is modelled by explicit state
  passing: a task's `run(context)` receives the context value and returns
  the (possibly mutated) context together with its `Result<TaskResult>`.
  Because the Rust `Context` is a pair of `Arc`s, the clone handed to the
  task shares state with `session.context`; in the value model this is
  rendered by the engine writing the task's output context back into the
  session, on success and on failure alike.
* `Graph::execute_session` is literally recursive in Rust; the embedding
  adds an explicit `fuel` parameter and a distinguished `fuelOut` outcome,
  so that every terminating Rust execution is an execution of the model
  with enough fuel.
* The `Arc`-pointer aliasing behaviour of `Context`'s derived `Clone`
  (needed for the storage claims) is modelled separately and explicitly by
  a small heap: `ContextRef` is an `Arc` pointer (a heap address), cloning
  it copies the address, and reads/writes go through the heap.
-/

namespace GraphFlow

mutual
/-- Model of `serde_json::Value`: self-describing JSON-like trees. The
children of `arr` and `obj` are given by the mutually defined list types
`ValueList` and `ValueFields` so that equality stays decidable by
computation. -/
inductive Value where
  | null : Value
  | bool (b : Bool) : Value
  | num (n : Int) : Value
  | str (s : String) : Value
  | arr (elems : ValueList) : Value
  | obj (fields : ValueFields) : Value
deriving DecidableEq, Repr

/-- List of JSON values (children of `Value.arr`). -/
inductive ValueList where
  | nil : ValueList
  | cons (hd : Value) (tl : ValueList) : ValueList
deriving DecidableEq, Repr

/-- List of keyed JSON values (children of `Value.obj`). -/
inductive ValueFields where
  | nil : ValueFields
  | cons (key : String) (val : Value) (tl : ValueFields) : ValueFields
deriving DecidableEq, Repr
end

/-- `MessageRole` from `context.rs`: role of a chat message. -/
inductive MessageRole where
  | user : MessageRole
  | assistant : MessageRole
  | system : MessageRole
deriving DecidableEq, Repr

/-- `SerializableMessage` from `context.rs`. The `timestamp` field
(`DateTime<Utc>`) is modelled by an integer. -/
structure SerializableMessage where
  role : MessageRole
  content : String
  timestamp : Int
deriving DecidableEq, Repr

/-- `SerializableMessage::new`; `Utc::now()` is the explicit `now` argument. -/
def SerializableMessage.mk' (role : MessageRole) (content : String) (now : Int) :
    SerializableMessage :=
  { role := role, content := content, timestamp := now }

/-- `SerializableMessage::user`. -/
def SerializableMessage.user' (content : String) (now : Int) : SerializableMessage :=
  SerializableMessage.mk' MessageRole.user content now

/-- `SerializableMessage::assistant`. -/
def SerializableMessage.assistant' (content : String) (now : Int) : SerializableMessage :=
  SerializableMessage.mk' MessageRole.assistant content now

/-- `SerializableMessage::system`. -/
def SerializableMessage.system' (content : String) (now : Int) : SerializableMessage :=
  SerializableMessage.mk' MessageRole.system content now

/-- `ChatHistory` from `context.rs`: messages plus an optional bound. -/
structure ChatHistory where
  messages : List SerializableMessage
  max_messages : Option Nat
deriving DecidableEq, Repr

/-- `ChatHistory::new`: empty, with the default bound of 1000 messages. -/
def ChatHistory.new : ChatHistory :=
  { messages := [], max_messages := some 1000 }

/-- `ChatHistory::with_max_messages`. -/
def ChatHistory.withMaxMessages (max : Nat) : ChatHistory :=
  { messages := [], max_messages := some max }

/-- `ChatHistory::add_message`: push, then `drain(0..(len - max))` when the
bound is exceeded. -/
def ChatHistory.addMessage (h : ChatHistory) (message : SerializableMessage) :
    ChatHistory :=
  let msgs := h.messages ++ [message]
  match h.max_messages with
  | some max =>
      if msgs.length > max then
        { h with messages := msgs.drop (msgs.length - max) }
      else
        { h with messages := msgs }
  | none => { h with messages := msgs }

/-- `ChatHistory::add_user_message`. -/
def ChatHistory.addUserMessage (h : ChatHistory) (content : String) (now : Int) :
    ChatHistory :=
  h.addMessage (SerializableMessage.user' content now)

/-- `ChatHistory::add_assistant_message`. -/
def ChatHistory.addAssistantMessage (h : ChatHistory) (content : String) (now : Int) :
    ChatHistory :=
  h.addMessage (SerializableMessage.assistant' content now)

/-- `ChatHistory::add_system_message`. -/
def ChatHistory.addSystemMessage (h : ChatHistory) (content : String) (now : Int) :
    ChatHistory :=
  h.addMessage (SerializableMessage.system' content now)

/-- `ChatHistory::len`. -/
def ChatHistory.len (h : ChatHistory) : Nat :=
  h.messages.length

/-- One call of an `add_*_message` method: which method, the content, and the
`Utc::now()` value observed during the call. -/
structure ChatOp where
  role : MessageRole
  content : String
  now : Int
deriving DecidableEq, Repr

/-- Perform one `add_*_message` call. -/
def ChatHistory.applyOp (h : ChatHistory) (op : ChatOp) : ChatHistory :=
  match op.role with
  | MessageRole.user => h.addUserMessage op.content op.now
  | MessageRole.assistant => h.addAssistantMessage op.content op.now
  | MessageRole.system => h.addSystemMessage op.content op.now

/-- Perform a sequence of `add_*_message` calls. -/
def ChatHistory.applyOps (h : ChatHistory) (ops : List ChatOp) : ChatHistory :=
  ops.foldl ChatHistory.applyOp h

/-- `DashMap::insert`: overwrite the entry for the key, or add a new entry. -/
def insertKV (data : List (String × Value)) (key : String) (value : Value) :
    List (String × Value) :=
  match data with
  | [] => [(key, value)]
  | (k, v) :: rest =>
      if k = key then (k, value) :: rest else (k, v) :: insertKV rest key value

/-- `DashMap::get`: look the key up. -/
def lookupKV (data : List (String × Value)) (key : String) : Option Value :=
  match data with
  | [] => none
  | (k, v) :: rest => if k = key then some v else lookupKV rest key

/-- `Context` from `context.rs`, as a value: the `data` map plus the chat
history. (The `Arc`-pointer view of the same type, needed for the storage
claims, is `ContextRef` below.) -/
structure Context where
  data : List (String × Value)
  chat_history : ChatHistory
deriving DecidableEq, Repr

/-- `Context::new`. -/
def Context.new : Context :=
  { data := [], chat_history := ChatHistory.new }

/-- `Context::with_max_chat_messages`. -/
def Context.withMaxChatMessages (max : Nat) : Context :=
  { data := [], chat_history := ChatHistory.withMaxMessages max }

/-- `Context::set` / `Context::set_sync` (the value already serialized). -/
def Context.set (c : Context) (key : String) (value : Value) : Context :=
  { c with data := insertKV c.data key value }

/-- `Context::get` / `Context::get_sync`, returning the stored JSON value. -/
def Context.get (c : Context) (key : String) : Option Value :=
  lookupKV c.data key

/-- `Context::add_user_message` (delegates through the `RwLock`). -/
def Context.addUserMessage (c : Context) (content : String) (now : Int) : Context :=
  { c with chat_history := c.chat_history.addUserMessage content now }

/-- `Context::add_assistant_message`. -/
def Context.addAssistantMessage (c : Context) (content : String) (now : Int) : Context :=
  { c with chat_history := c.chat_history.addAssistantMessage content now }

/-- `Context::chat_history_len`. -/
def Context.chatHistoryLen (c : Context) : Nat :=
  c.chat_history.len

/-- `ContextData` from `context.rs`: the helper struct that gives `Context`
its serialized form. -/
structure ContextData where
  data : List (String × Value)
  chat_history : ChatHistory
deriving DecidableEq, Repr

/-- `impl Serialize for Context`: capture the `data` entries and a clone of
the chat history into a `ContextData`. -/
def Context.serialize (c : Context) : ContextData :=
  { data := c.data, chat_history := c.chat_history }

/-- `impl Deserialize for Context`: insert every entry of the decoded
`ContextData` into a fresh map and wrap the decoded chat history. -/
def Context.deserialize (cd : ContextData) : Context :=
  { data := cd.data.foldl (fun m kv => insertKV m kv.1 kv.2) [],
    chat_history := cd.chat_history }

/-- Modelled from the spec: the `GraphError` taxonomy of `error.rs` (§7 of
the spec); `error.rs` itself is not among the provided sources, but the
variants used by `graph.rs` and `runner.rs` fix the shape needed here. -/
inductive GraphError where
  | TaskNotFound (id : String) : GraphError
  | SessionNotFound (id : String) : GraphError
  | ContextError (msg : String) : GraphError
  | TaskExecutionFailed (msg : String) : GraphError
  | StorageError (msg : String) : GraphError
deriving DecidableEq, Repr

/-- `NextAction` from `task.rs`. -/
inductive NextAction where
  | Continue : NextAction
  | ContinueAndExecute : NextAction
  | GoTo (target : String) : NextAction
  | GoBack : NextAction
  | End : NextAction
  | WaitForInput : NextAction
deriving DecidableEq, Repr

/-- `TaskResult` from `task.rs`. -/
structure TaskResult where
  response : Option String
  next_action : NextAction
  task_id : String
  status_message : Option String
deriving DecidableEq, Repr

/-- `TaskResult::new`. -/
def TaskResult.new' (response : Option String) (next_action : NextAction) : TaskResult :=
  { response := response, next_action := next_action, task_id := "",
    status_message := none }

/-- `Task` trait from `task.rs`: `id()` plus `run(context)`. `run` is
modelled as a pure state-passing function returning the `Result<TaskResult>`
together with the context as the task leaves it; the Rust context argument
is a shallow `Arc` clone of the session's context, so the task's writes
survive into the session whether or not `run` succeeds. -/
structure Task where
  id : String
  run : Context → Except GraphError TaskResult × Context

/-- `Edge` from `graph.rs`. (`from` and `to` are reserved words in this
Lean environment, hence the trailing underscores.) -/
structure Edge where
  from_ : String
  to_ : String
  condition : Option (Context → Bool)

/-- `Graph` from `graph.rs`: the task registry (a `DashMap`, modelled as an
association list), the ordered edge list, and the optional start task. -/
structure Graph where
  id : String
  tasks : List (String × Task)
  edges : List Edge
  start_task_id : Option String

/-- `Graph::get_task`. -/
def Graph.getTask (g : Graph) (task_id : String) : Option Task :=
  match g.tasks.find? (fun kv => kv.1 = task_id) with
  | some kv => some kv.2
  | none => none

/-- `self.tasks.contains_key(..)`. -/
def Graph.containsTask (g : Graph) (task_id : String) : Bool :=
  (g.getTask task_id).isSome

/-- The loop body of `Graph::find_next_task`: scan the edges in order; on
an edge leaving the current task, return its target if its condition is
absent or holds on the context, otherwise keep scanning. -/
def findNextTaskAux (current_task_id : String) (ctx : Context) :
    List Edge → Option String
  | [] => none
  | e :: rest =>
      if e.from_ = current_task_id then
        match e.condition with
        | some cond =>
            if cond ctx then some e.to_ else findNextTaskAux current_task_id ctx rest
        | none => some e.to_
      else findNextTaskAux current_task_id ctx rest

/-- `Graph::find_next_task`. -/
def Graph.findNextTask (g : Graph) (current_task_id : String) (ctx : Context) :
    Option String :=
  findNextTaskAux current_task_id ctx g.edges

/-- `Graph::execute_single_task`: look the task up (`TaskNotFound` when
missing), run it, and stamp the result's `task_id`. -/
def Graph.executeSingleTask (g : Graph) (task_id : String) (ctx : Context) :
    Except GraphError TaskResult × Context :=
  match g.getTask task_id with
  | none => (Except.error (GraphError.TaskNotFound task_id), ctx)
  | some task =>
      match task.run ctx with
      | (Except.error e, ctx') => (Except.error e, ctx')
      | (Except.ok result, ctx') => (Except.ok { result with task_id := task_id }, ctx')

/-- `ExecutionStatus` from `graph.rs`. -/
inductive ExecutionStatus where
  | WaitingForInput : ExecutionStatus
  | Completed : ExecutionStatus
  | Error (msg : String) : ExecutionStatus
deriving DecidableEq, Repr

/-- `ExecutionResult` from `graph.rs`. -/
structure ExecutionResult where
  response : Option String
  status : ExecutionStatus
deriving DecidableEq, Repr

/-- `Session` from `storage.rs`. The provided `storage.rs` iteration lists
`id`, `graph_id`, `current_task_id` and the `#[serde(skip)]`-ped `context`;
`graph.rs` additionally assigns `session.status_message`, so the embedding
carries that field too (serialized like the plain fields). -/
structure Session where
  id : String
  graph_id : String
  current_task_id : String
  status_message : Option String
  context : Context
deriving DecidableEq, Repr

/-- `Session::new_from_task`. -/
def Session.newFromTask (sid : String) (task_name : String) : Session :=
  { id := sid, graph_id := "default", current_task_id := task_name,
    status_message := none, context := Context.new }

/-- The serialized form of `Session` under the derived `Serialize` /
`Deserialize`: every field except `context`, which is `#[serde(skip)]`. -/
structure SessionWire where
  id : String
  graph_id : String
  current_task_id : String
  status_message : Option String
deriving DecidableEq, Repr

/-- Derived `Serialize` for `Session`: the `context` field is skipped. -/
def Session.serialize (s : Session) : SessionWire :=
  { id := s.id, graph_id := s.graph_id, current_task_id := s.current_task_id,
    status_message := s.status_message }

/-- Derived `Deserialize` for `Session`: `#[serde(skip)]` fills `context`
with `Context::default()`, i.e. `Context::new()`. -/
def Session.deserialize (w : SessionWire) : Session :=
  { id := w.id, graph_id := w.graph_id, current_task_id := w.current_task_id,
    status_message := w.status_message, context := Context.new }

/-- Outcome of `Graph::execute_session` in the fuelled model: the Rust
`Result<ExecutionResult>` paired with the state the `&mut Session` is left
in, plus a distinguished out-of-fuel outcome standing for recursion deeper
than the supplied fuel. -/
inductive ExecOutcome where
  | ok (result : ExecutionResult) (session : Session) : ExecOutcome
  | err (e : GraphError) (session : Session) : ExecOutcome
  | fuelOut : ExecOutcome
deriving DecidableEq, Repr

/-- `Graph::execute_session` from `graph.rs`, with explicit fuel for the
recursive `ContinueAndExecute` case. The session's context is replaced by
the context the task left behind (in Rust the two share one `Arc`), the
result's `status_message` is copied onto the session, and the
`next_action` is interpreted exactly as in the source. -/
def Graph.executeSession (g : Graph) : Nat → Session → ExecOutcome
  | 0, _ => ExecOutcome.fuelOut
  | fuel + 1, s =>
      match g.executeSingleTask s.current_task_id s.context with
      | (Except.error e, ctx') => ExecOutcome.err e { s with context := ctx' }
      | (Except.ok result, ctx') =>
          let s1 : Session := { s with context := ctx', status_message := result.status_message }
          match result.next_action with
          | NextAction.Continue =>
              match g.findNextTask result.task_id s1.context with
              | some next_task_id =>
                  ExecOutcome.ok ⟨result.response, ExecutionStatus.WaitingForInput⟩
                    { s1 with current_task_id := next_task_id }
              | none =>
                  ExecOutcome.ok ⟨result.response, ExecutionStatus.WaitingForInput⟩
                    { s1 with current_task_id := result.task_id }
          | NextAction.ContinueAndExecute =>
              match g.findNextTask result.task_id s1.context with
              | some next_task_id =>
                  g.executeSession fuel { s1 with current_task_id := next_task_id }
              | none =>
                  ExecOutcome.ok ⟨result.response, ExecutionStatus.WaitingForInput⟩
                    { s1 with current_task_id := result.task_id }
          | NextAction.WaitForInput =>
              ExecOutcome.ok ⟨result.response, ExecutionStatus.WaitingForInput⟩
                { s1 with current_task_id := result.task_id }
          | NextAction.End =>
              ExecOutcome.ok ⟨result.response, ExecutionStatus.Completed⟩
                { s1 with current_task_id := result.task_id }
          | NextAction.GoTo target_id =>
              if g.containsTask target_id then
                ExecOutcome.ok ⟨result.response, ExecutionStatus.WaitingForInput⟩
                  { s1 with current_task_id := target_id }
              else
                ExecOutcome.err (GraphError.TaskNotFound target_id) s1
          | NextAction.GoBack =>
              ExecOutcome.ok ⟨result.response, ExecutionStatus.WaitingForInput⟩
                { s1 with current_task_id := result.task_id }

/-- `Arc` pointer to the shared interior of a `Context` (a heap address).
The derived `Clone` of `Context` (`#[derive(Clone)]` in `context.rs`)
clones its two `Arc` fields, i.e. copies this pointer and shares the
pointee. -/
structure ContextRef where
  ref : Nat
deriving DecidableEq, Repr

/-- Derived `Context::clone`: `Arc::clone` — the pointer is copied, the
pointed-to state is shared. -/
def ContextRef.clone (c : ContextRef) : ContextRef := c

/-- The heap of live `Context` interiors, addressed by `ContextRef.ref`. -/
abbrev CtxHeap := List Context

/-- Dereference a context pointer. -/
def CtxHeap.read (h : CtxHeap) (r : ContextRef) : Context :=
  h.getD r.ref Context.new

/-- `Context::set` performed through a pointer: update the pointee in
place. -/
def CtxHeap.writeKV (h : CtxHeap) (r : ContextRef) (key : String) (value : Value) :
    CtxHeap :=
  h.set r.ref ((h.getD r.ref Context.new).set key value)

/-- `Context::get` performed through a pointer. -/
def CtxHeap.readKV (h : CtxHeap) (r : ContextRef) (key : String) : Option Value :=
  (h.getD r.ref Context.new).get key

/-- `Session` as held by `InMemorySessionStorage`, with its context as an
`Arc` pointer (the field list of the `storage.rs` `Session`). -/
structure SessionRef where
  id : String
  graph_id : String
  current_task_id : String
  context : ContextRef
deriving DecidableEq, Repr

/-- Derived `Session::clone`: the string fields are copied, the `context`
field is `Clone`d — a pointer copy, not a deep copy. -/
def SessionRef.clone (s : SessionRef) : SessionRef :=
  { s with context := s.context.clone }

/-- The `DashMap<String, Session>` backing `InMemorySessionStorage`. -/
abbrev SessionStore := List (String × SessionRef)

/-- `InMemorySessionStorage::save`:
`self.sessions.insert(session.id.clone(), session)`. -/
def SessionStore.save (st : SessionStore) (s : SessionRef) : SessionStore :=
  match st with
  | [] => [(s.id, s)]
  | (k, v) :: rest =>
      if k = s.id then (k, s) :: rest else (k, v) :: SessionStore.save rest s

/-- The raw `self.sessions.get(id)` lookup. -/
def SessionStore.lookup (st : SessionStore) (id : String) : Option SessionRef :=
  match st with
  | [] => none
  | (k, v) :: rest => if k = id then some v else SessionStore.lookup rest id

/-- `InMemorySessionStorage::get`:
`self.sessions.get(id).map(|entry| entry.clone())`. -/
def SessionStore.get (st : SessionStore) (id : String) : Option SessionRef :=
  (SessionStore.lookup st id).map SessionRef.clone

/-! ### Helper lemmas -/

/-- An edge matches during `find_next_task` when it leaves the current task
and its condition is absent or holds on the context. -/
def edgeMatches (current_task_id : String) (ctx : Context) (e : Edge) : Bool :=
  e.from_ == current_task_id &&
    (match e.condition with
     | none => true
     | some cond => cond ctx)

theorem findNextTaskAux_eq_find? (current_task_id : String) (ctx : Context) :
    ∀ es : List Edge,
      findNextTaskAux current_task_id ctx es =
        (es.find? (edgeMatches current_task_id ctx)).map Edge.to_ := by
  intro es
  induction es with
  | nil => rfl
  | cons e rest ih =>
      unfold findNextTaskAux
      by_cases hf : e.from_ = current_task_id
      · cases hc : e.condition with
        | none => simp [List.find?, edgeMatches, hf, hc]
        | some cond =>
            cases hcc : cond ctx with
            | true => simp [List.find?, edgeMatches, hf, hc, hcc]
            | false => simp [List.find?, edgeMatches, hf, hc, hcc, ih]
      · have hbf : (e.from_ == current_task_id) = false := beq_eq_false_iff_ne.mpr hf
        simp [List.find?, edgeMatches, hf, hbf, ih]

theorem findNextTaskAux_mem {current_task_id : String} {ctx : Context} :
    ∀ {es : List Edge} {nt : String},
      findNextTaskAux current_task_id ctx es = some nt →
      ∃ e ∈ es, e.to_ = nt := by
  intro es
  induction es with
  | nil => intro nt h; cases h
  | cons e rest ih =>
      intro nt h
      unfold findNextTaskAux at h
      by_cases hf : e.from_ = current_task_id
      · simp only [hf, if_true] at h
        cases hc : e.condition with
        | none =>
            simp only [hc] at h
            exact ⟨e, List.mem_cons_self e rest, by injection h⟩
        | some cond =>
            simp only [hc] at h
            cases hcc : cond ctx with
            | true =>
                simp only [hcc, if_true] at h
                exact ⟨e, List.mem_cons_self e rest, by injection h⟩
            | false =>
                simp only [hcc, if_false] at h
                obtain ⟨e', he', hto⟩ := ih h
                exact ⟨e', List.mem_cons_of_mem e he', hto⟩
      · simp only [hf, if_false] at h
        obtain ⟨e', he', hto⟩ := ih h
        exact ⟨e', List.mem_cons_of_mem e he', hto⟩

theorem Graph.findNextTask_mem {g : Graph} {cur nt : String} {ctx : Context}
    (h : g.findNextTask cur ctx = some nt) : ∃ e ∈ g.edges, e.to_ = nt :=
  findNextTaskAux_mem h

theorem Graph.executeSingleTask_ok_task_id {g : Graph} {tid : String} {ctx ctx' : Context}
    {r : TaskResult} (h : g.executeSingleTask tid ctx = (Except.ok r, ctx')) :
    r.task_id = tid := by
  unfold Graph.executeSingleTask at h
  cases hg : g.getTask tid with
  | none => simp [hg] at h
  | some task =>
      simp only [hg] at h
      cases hr : task.run ctx with
      | mk res c =>
          simp only [hr] at h
          cases res with
          | error e => simp at h
          | ok result =>
              simp only [Prod.mk.injEq] at h
              obtain ⟨h1, _⟩ := h
              injection h1 with h1'
              rw [← h1']

theorem ChatHistory.addMessage_max (h : ChatHistory) (m : SerializableMessage) :
    (h.addMessage m).max_messages = h.max_messages := by
  unfold ChatHistory.addMessage
  cases h.max_messages <;> simp <;> split <;> rfl

theorem ChatHistory.addMessage_len_le (h : ChatHistory) (m : SerializableMessage)
    (N : Nat) (hmax : h.max_messages = some N) :
    (h.addMessage m).messages.length ≤ N := by
  unfold ChatHistory.addMessage
  rw [hmax]
  simp only []
  split
  · next hgt => simp only [List.length_drop]; omega
  · next hle =>
      simp only [List.length_append, List.length_cons, List.length_nil] at *
      omega

theorem ChatHistory.applyOp_max (h : ChatHistory) (op : ChatOp) :
    (h.applyOp op).max_messages = h.max_messages := by
  unfold ChatHistory.applyOp ChatHistory.addUserMessage ChatHistory.addAssistantMessage
    ChatHistory.addSystemMessage
  cases op.role <;> exact ChatHistory.addMessage_max _ _

theorem ChatHistory.applyOp_len_le (h : ChatHistory) (op : ChatOp) (N : Nat)
    (hmax : h.max_messages = some N) : (h.applyOp op).messages.length ≤ N := by
  unfold ChatHistory.applyOp ChatHistory.addUserMessage ChatHistory.addAssistantMessage
    ChatHistory.addSystemMessage
  cases op.role <;> exact ChatHistory.addMessage_len_le _ _ _ hmax

theorem ChatHistory.applyOps_len_le (N : Nat) :
    ∀ (ops : List ChatOp) (h : ChatHistory), h.max_messages = some N →
      h.messages.length ≤ N → (h.applyOps ops).messages.length ≤ N
  | [], h, _, hlen => hlen
  | op :: ops, h, hmax, _ => by
      have hmax' : (h.applyOp op).max_messages = some N := by
        rw [ChatHistory.applyOp_max, hmax]
      have hlen' := ChatHistory.applyOp_len_le h op N hmax
      exact ChatHistory.applyOps_len_le N ops (h.applyOp op) hmax' hlen'

/-! ### Concrete fixtures used by witnesses and counterexamples -/

/-- Unconditional edge `a → b` (declared first). -/
def edgeAB : Edge := { from_ := "a", to_ := "b", condition := none }

/-- Conditional edge `a → c`, firing when the context holds `x = "1"`. -/
def edgeAC : Edge :=
  { from_ := "a", to_ := "c",
    condition := some (fun c => decide (c.get "x" = some (Value.str "1"))) }

/-- A graph with only edges, for exercising `find_next_task`. -/
def gFind : Graph :=
  { id := "gfind", tasks := [], edges := [edgeAB, edgeAC], start_task_id := none }

/-- Task "a" that answers "ra" and returns `Continue`. -/
def taskContinueA : Task :=
  { id := "a", run := fun ctx => (Except.ok (TaskResult.new' (some "ra") NextAction.Continue), ctx) }

/-- Task "a" that writes `k = "v"` to the context, answers "ra" and returns
`ContinueAndExecute`. -/
def taskChainA : Task :=
  { id := "a",
    run := fun ctx =>
      (Except.ok (TaskResult.new' (some "ra") NextAction.ContinueAndExecute),
       ctx.set "k" (Value.str "v")) }

/-- Task "b" that reads `k` from the context, answers with its value (or
"missing") and returns `End`. -/
def taskReadB : Task :=
  { id := "b",
    run := fun ctx =>
      (Except.ok
        (TaskResult.new'
          (some (match ctx.get "k" with
                 | some (Value.str v) => v
                 | _ => "missing"))
          NextAction.End),
       ctx) }

/-- Task "a" that fails. -/
def taskFailA : Task :=
  { id := "a", run := fun ctx => (Except.error (GraphError.TaskExecutionFailed "boom"), ctx) }

/-- Task "a" returning `GoTo("b")`. -/
def taskGotoB : Task :=
  { id := "a", run := fun ctx => (Except.ok (TaskResult.new' (some "ra") (NextAction.GoTo "b")), ctx) }

/-- Task "a" returning `GoTo("zz")` where "zz" is not in the graph. -/
def taskGotoMissing : Task :=
  { id := "a", run := fun ctx => (Except.ok (TaskResult.new' (some "ra") (NextAction.GoTo "zz")), ctx) }

/-- Graph `a → b` where "a" returns `Continue`. -/
def gContinue : Graph :=
  { id := "g", tasks := [("a", taskContinueA), ("b", taskReadB)],
    edges := [edgeAB], start_task_id := some "a" }

/-- Graph `a → b` where "a" writes to the context and returns
`ContinueAndExecute`. -/
def gChain : Graph :=
  { id := "g", tasks := [("a", taskChainA), ("b", taskReadB)],
    edges := [edgeAB], start_task_id := some "a" }

/-- Graph whose task "a" jumps to the existing task "b". -/
def gGoto : Graph :=
  { id := "g", tasks := [("a", taskGotoB), ("b", taskReadB)],
    edges := [], start_task_id := some "a" }

/-- Graph whose task "a" jumps to a task id absent from the graph. -/
def gGotoMissing : Graph :=
  { id := "g", tasks := [("a", taskGotoMissing)], edges := [], start_task_id := some "a" }

/-- Graph whose task "a" fails. -/
def gFail : Graph :=
  { id := "g", tasks := [("a", taskFailA)], edges := [], start_task_id := some "a" }

/-- A fresh session positioned at task "a". -/
def sessA : Session :=
  { id := "s", graph_id := "default", current_task_id := "a",
    status_message := none, context := Context.new }

/-! ### Claims -/

/-- C10: `Session::new_from_task(sid, t)` returns a Session whose `graph_id`
is the literal string "default", whatever graph the session will actually be
executed against; `id` and `current_task_id` are taken from the arguments. -/
theorem C10_new_from_task_default_graph_id (sid task_name : String) :
    (Session.newFromTask sid task_name).graph_id = "default"
    ∧ (Session.newFromTask sid task_name).id = sid
    ∧ (Session.newFromTask sid task_name).current_task_id = task_name :=
  ⟨rfl, rfl, rfl⟩

/-- C5: `find_next_task` scans the edges in insertion order and returns the
`to` of the first edge whose `from` equals the current task id and whose
condition is absent or true on the context (so an earlier unconditional
edge shadows every later edge from the same task); with no matching edge it
returns `none`; and two evaluations on the same inputs agree (the model is
a pure function of graph, task id and context). -/
theorem C5_find_next_task_first_match (g : Graph) (cur : String) (ctx : Context) :
    g.findNextTask cur ctx = (g.edges.find? (edgeMatches cur ctx)).map Edge.to_
    ∧ (g.edges.find? (edgeMatches cur ctx) = none → g.findNextTask cur ctx = none)
    ∧ (∀ e₁ rest, g.edges = e₁ :: rest → e₁.from_ = cur → e₁.condition = none →
        g.findNextTask cur ctx = some e₁.to_)
    ∧ g.findNextTask cur ctx = g.findNextTask cur ctx := by
  refine ⟨findNextTaskAux_eq_find? cur ctx g.edges, ?_, ?_, rfl⟩
  · intro hnone
    unfold Graph.findNextTask
    rw [findNextTaskAux_eq_find? cur ctx g.edges, hnone]
    rfl
  · intro e₁ rest hedges hfrom hcond
    unfold Graph.findNextTask
    rw [hedges]
    unfold findNextTaskAux
    simp [hfrom, hcond]

/-- Witness for C5: on the fixture graph, `find_next_task("a", ∅)` takes the
first (unconditional) edge `a → b`, shadowing the conditional `a → c`; from
"z" no edge matches and the result is `none`. -/
theorem C5_find_next_task_first_match_witness :
    gFind.findNextTask "a" Context.new = some "b"
    ∧ gFind.findNextTask "z" Context.new = none := by
  constructor
  · exact (C5_find_next_task_first_match gFind "a" Context.new).2.2.1
      edgeAB [edgeAC] rfl rfl rfl
  · exact (C5_find_next_task_first_match gFind "z" Context.new).2.1 rfl

/-- C6: for a chat history configured with bound `N` (`with_max_messages`),
the length after any sequence of `add_user/assistant/system_message` calls
never exceeds `N`; and adding a message to a history already holding `N ≥ 1`
messages evicts exactly the oldest message, keeping the remaining messages
in insertion order followed by the new one. -/
theorem C6_chat_history_bound (N : Nat) (ops : List ChatOp) (h : ChatHistory)
    (m : SerializableMessage) (hmax : h.max_messages = some N)
    (hlen : h.messages.length = N) (hpos : 0 < N) :
    ((ChatHistory.withMaxMessages N).applyOps ops).messages.length ≤ N
    ∧ (h.addMessage m).messages = h.messages.drop 1 ++ [m] := by
  constructor
  · exact ChatHistory.applyOps_len_le N ops _ rfl (by simp [ChatHistory.withMaxMessages])
  · have hlen2 : (h.messages ++ [m]).length = N + 1 := by simp [hlen]
    simp only [ChatHistory.addMessage, hmax]
    rw [if_pos (by rw [hlen2]; omega)]
    simp only [hlen2, Nat.add_sub_cancel_left]
    exact List.drop_append_of_le_length (by omega)

/-- Witness for C6 at `N = 2`: three adds stay within the bound, and the
third add to a full history drops the oldest message `m1`. -/
theorem C6_chat_history_bound_witness :
    ((ChatHistory.withMaxMessages 2).applyOps
        [⟨MessageRole.user, "m1", 0⟩, ⟨MessageRole.assistant, "m2", 1⟩,
         ⟨MessageRole.user, "m3", 2⟩]).messages.length ≤ 2
    ∧ (ChatHistory.addMessage
        ⟨[⟨MessageRole.user, "m1", 0⟩, ⟨MessageRole.assistant, "m2", 1⟩], some 2⟩
        ⟨MessageRole.user, "m3", 2⟩).messages =
      [⟨MessageRole.user, "m1", 0⟩, ⟨MessageRole.assistant, "m2", 1⟩].drop 1 ++
        [⟨MessageRole.user, "m3", 2⟩] :=
  C6_chat_history_bound 2
    [⟨MessageRole.user, "m1", 0⟩, ⟨MessageRole.assistant, "m2", 1⟩,
     ⟨MessageRole.user, "m3", 2⟩]
    ⟨[⟨MessageRole.user, "m1", 0⟩, ⟨MessageRole.assistant, "m2", 1⟩], some 2⟩
    ⟨MessageRole.user, "m3", 2⟩ rfl rfl (by decide)

/-- C4: when the current task's run returns `Continue`, `execute_session`
resolves the next task via `find_next_task` on the post-run context; if one
is found, `current_task_id` moves there, otherwise it stays at the executed
task; either way the step returns `WaitingForInput` with the executed
task's response and does not execute the next task (the outcome is an
immediate `ok`, no further `run` is consulted). -/
theorem C4_continue_semantics (g : Graph) (fuel : Nat) (s : Session)
    (result : TaskResult) (ctx' : Context)
    (hstep : g.executeSingleTask s.current_task_id s.context = (Except.ok result, ctx'))
    (hact : result.next_action = NextAction.Continue) :
    (∀ nt, g.findNextTask result.task_id ctx' = some nt →
      g.executeSession (fuel + 1) s =
        ExecOutcome.ok ⟨result.response, ExecutionStatus.WaitingForInput⟩
          { s with context := ctx', status_message := result.status_message,
                   current_task_id := nt })
    ∧ (g.findNextTask result.task_id ctx' = none →
      g.executeSession (fuel + 1) s =
        ExecOutcome.ok ⟨result.response, ExecutionStatus.WaitingForInput⟩
          { s with context := ctx', status_message := result.status_message,
                   current_task_id := result.task_id }) := by
  constructor
  · intro nt hnext
    simp only [Graph.executeSession, hstep, hact, hnext]
  · intro hnone
    simp only [Graph.executeSession, hstep, hact, hnone]

/-- Witness for C4: on `gContinue` one step from "a" moves the session to
"b" without running "b", returning "a"'s response and `WaitingForInput`. -/
theorem C4_continue_semantics_witness :
    gContinue.executeSession 1 sessA =
      ExecOutcome.ok ⟨some "ra", ExecutionStatus.WaitingForInput⟩
        { sessA with context := Context.new, status_message := none,
                     current_task_id := "b" } :=
  (C4_continue_semantics gContinue 0 sessA
      ⟨some "ra", NextAction.Continue, "a", none⟩ Context.new rfl rfl).1 "b" rfl

/-- C2: when the current task's run returns `ContinueAndExecute` and
`find_next_task` resolves a next task, `execute_session` moves
`current_task_id` there and recursively invokes itself on the same session,
whose context is exactly the context the task left behind — so every task
executed later in the chain observes all writes of the earlier ones, and
the chain's `ExecutionResult` (hence its response) is the recursive call's
result, i.e. that of the last executed step; if no edge matches, the
session stays at the executed task and the step returns
`WaitingForInput`. -/
theorem C2_continue_and_execute_semantics (g : Graph) (fuel : Nat) (s : Session)
    (result : TaskResult) (ctx' : Context)
    (hstep : g.executeSingleTask s.current_task_id s.context = (Except.ok result, ctx'))
    (hact : result.next_action = NextAction.ContinueAndExecute) :
    (∀ nt, g.findNextTask result.task_id ctx' = some nt →
      g.executeSession (fuel + 1) s =
        g.executeSession fuel
          { s with context := ctx', status_message := result.status_message,
                   current_task_id := nt })
    ∧ (g.findNextTask result.task_id ctx' = none →
      g.executeSession (fuel + 1) s =
        ExecOutcome.ok ⟨result.response, ExecutionStatus.WaitingForInput⟩
          { s with context := ctx', status_message := result.status_message,
                   current_task_id := result.task_id }) := by
  constructor
  · intro nt hnext
    simp only [Graph.executeSession, hstep, hact, hnext]
  · intro hnone
    simp only [Graph.executeSession, hstep, hact, hnone]

/-- Witness for C2: on `gChain`, the step at "a" recurses on the same
session carrying "a"'s write `k = "v"`, positioned at "b"; the recursive
call then lets "b" observe the write and produce the chain's final result. -/
theorem C2_continue_and_execute_semantics_witness :
    (gChain.executeSession 2 sessA =
      gChain.executeSession 1
        { sessA with context := Context.new.set "k" (Value.str "v"),
                     status_message := none, current_task_id := "b" })
    ∧ gChain.executeSession 2 sessA =
        ExecOutcome.ok ⟨some "v", ExecutionStatus.Completed⟩
          { sessA with context := Context.new.set "k" (Value.str "v"),
                       status_message := none, current_task_id := "b" } :=
  ⟨(C2_continue_and_execute_semantics gChain 1 sessA
      ⟨some "ra", NextAction.ContinueAndExecute, "a", none⟩
      (Context.new.set "k" (Value.str "v")) rfl rfl).1 "b" rfl,
   by decide⟩

/-- C8: when the current task's run returns `GoTo(target)`: if `target` is
a task of the graph, `execute_session` sets `current_task_id` to it and
returns `WaitingForInput` without executing the target (the outcome is an
immediate `ok`); if `target` is not in the graph, it returns the
`TaskNotFound(target)` error. -/
theorem C8_goto_semantics (g : Graph) (fuel : Nat) (s : Session)
    (result : TaskResult) (ctx' : Context) (target : String)
    (hstep : g.executeSingleTask s.current_task_id s.context = (Except.ok result, ctx'))
    (hact : result.next_action = NextAction.GoTo target) :
    (g.containsTask target = true →
      g.executeSession (fuel + 1) s =
        ExecOutcome.ok ⟨result.response, ExecutionStatus.WaitingForInput⟩
          { s with context := ctx', status_message := result.status_message,
                   current_task_id := target })
    ∧ (g.containsTask target = false →
      g.executeSession (fuel + 1) s =
        ExecOutcome.err (GraphError.TaskNotFound target)
          { s with context := ctx', status_message := result.status_message }) := by
  constructor
  · intro hmem
    simp only [Graph.executeSession, hstep, hact, hmem, if_true]
  · intro hmem
    simp only [Graph.executeSession, hstep, hact, hmem]
    simp

/-- Witness for C8: `GoTo("b")` moves `gGoto`'s session to "b" and waits;
`GoTo("zz")` on `gGotoMissing` yields `TaskNotFound("zz")`. -/
theorem C8_goto_semantics_witness :
    (gGoto.executeSession 1 sessA =
      ExecOutcome.ok ⟨some "ra", ExecutionStatus.WaitingForInput⟩
        { sessA with context := Context.new, status_message := none,
                     current_task_id := "b" })
    ∧ gGotoMissing.executeSession 1 sessA =
        ExecOutcome.err (GraphError.TaskNotFound "zz")
          { sessA with context := Context.new, status_message := none } :=
  ⟨(C8_goto_semantics gGoto 0 sessA ⟨some "ra", NextAction.GoTo "b", "a", none⟩
      Context.new "b" rfl rfl).1 rfl,
   (C8_goto_semantics gGotoMissing 0 sessA ⟨some "ra", NextAction.GoTo "zz", "a", none⟩
      Context.new "zz" rfl rfl).2 rfl⟩

/-- C9: error exits of one `execute_session` invocation leave the session
in its pre-transition state. (1) When the current task's run fails, the
error is returned verbatim — no retry — and the session keeps its
`current_task_id` and `status_message`; only the context carries whatever
the failing task had already written through the shared `Arc`. (2) When
the current task id is not in the graph, `TaskNotFound` is returned with
the session completely untouched. (3) When a `GoTo` target is missing,
`TaskNotFound(target)` is returned with `current_task_id` unchanged (the
step's `status_message` copy and the task's context writes, which precede
the transition, are retained). -/
theorem C9_error_leaves_session_consistent (g : Graph) (fuel : Nat) (s : Session) :
    (∀ task e ctx', g.getTask s.current_task_id = some task →
      task.run s.context = (Except.error e, ctx') →
      g.executeSession (fuel + 1) s = ExecOutcome.err e { s with context := ctx' })
    ∧ (g.getTask s.current_task_id = none →
      g.executeSession (fuel + 1) s =
        ExecOutcome.err (GraphError.TaskNotFound s.current_task_id) s)
    ∧ (∀ result ctx' target,
        g.executeSingleTask s.current_task_id s.context = (Except.ok result, ctx') →
        result.next_action = NextAction.GoTo target →
        g.containsTask target = false →
        g.executeSession (fuel + 1) s =
          ExecOutcome.err (GraphError.TaskNotFound target)
            { s with context := ctx', status_message := result.status_message }) := by
  refine ⟨?_, ?_, ?_⟩
  · intro task e ctx' hget hrun
    simp only [Graph.executeSession, Graph.executeSingleTask, hget, hrun]
  · intro hget
    simp only [Graph.executeSession, Graph.executeSingleTask, hget]
  · intro result ctx' target hstep hact hmem
    simp only [Graph.executeSession, hstep, hact, hmem]
    simp

/-- Witness for C9: a failing "a" on `gFail` surfaces its error with the
session unchanged; a session pointed at "a" in the task-less `gFind`
yields `TaskNotFound("a")` with the session unchanged; and `gGotoMissing`
yields `TaskNotFound("zz")` with `current_task_id` still "a". -/
theorem C9_error_leaves_session_consistent_witness :
    (gFail.executeSession 1 sessA =
      ExecOutcome.err (GraphError.TaskExecutionFailed "boom") sessA)
    ∧ (gFind.executeSession 1 sessA =
      ExecOutcome.err (GraphError.TaskNotFound "a") sessA)
    ∧ gGotoMissing.executeSession 1 sessA =
        ExecOutcome.err (GraphError.TaskNotFound "zz")
          { sessA with context := Context.new, status_message := none } :=
  ⟨(C9_error_leaves_session_consistent gFail 0 sessA).1 taskFailA
      (GraphError.TaskExecutionFailed "boom") Context.new rfl rfl,
   (C9_error_leaves_session_consistent gFind 0 sessA).2.1 rfl,
   (C9_error_leaves_session_consistent gGotoMissing 0 sessA).2.2
      ⟨some "ra", NextAction.GoTo "zz", "a", none⟩ Context.new "zz" rfl rfl rfl⟩

/-- C3: provided every edge's `from` and `to` name tasks of the graph and
the session starts at a task of the graph, any successful return of
`execute_session` (any `NextAction`, through any `ContinueAndExecute`
recursion) leaves `current_task_id` at a task present in the graph. -/
theorem C3_current_task_stays_in_graph (g : Graph) (fuel : Nat) (s : Session)
    (res : ExecutionResult) (s' : Session)
    (hedges : ∀ e ∈ g.edges, g.containsTask e.from_ = true ∧ g.containsTask e.to_ = true)
    (hcur : g.containsTask s.current_task_id = true)
    (hok : g.executeSession fuel s = ExecOutcome.ok res s') :
    g.containsTask s'.current_task_id = true := by
  induction fuel generalizing s res s' with
  | zero => simp [Graph.executeSession] at hok
  | succ fuel ih =>
      cases hstep : g.executeSingleTask s.current_task_id s.context with
      | mk r ctx' =>
          cases r with
          | error e =>
              simp only [Graph.executeSession, hstep] at hok
              exact ExecOutcome.noConfusion hok
          | ok result =>
              have htid : result.task_id = s.current_task_id :=
                Graph.executeSingleTask_ok_task_id hstep
              simp only [Graph.executeSession, hstep] at hok
              cases hact : result.next_action with
              | Continue =>
                  simp only [hact] at hok
                  cases hnext : g.findNextTask result.task_id ctx' with
                  | some nt =>
                      simp only [hnext] at hok
                      obtain ⟨e, he, hto⟩ := Graph.findNextTask_mem hnext
                      injection hok with h1 h2
                      rw [← h2]
                      rw [← hto]
                      exact (hedges e he).2
                  | none =>
                      simp only [hnext] at hok
                      injection hok with h1 h2
                      rw [← h2]
                      simpa [htid] using hcur
              | ContinueAndExecute =>
                  simp only [hact] at hok
                  cases hnext : g.findNextTask result.task_id ctx' with
                  | some nt =>
                      simp only [hnext] at hok
                      obtain ⟨e, he, hto⟩ := Graph.findNextTask_mem hnext
                      have hcur' : g.containsTask nt = true := by
                        rw [← hto]
                        exact (hedges e he).2
                      exact ih _ _ _ hcur' hok
                  | none =>
                      simp only [hnext] at hok
                      injection hok with h1 h2
                      rw [← h2]
                      simpa [htid] using hcur
              | WaitForInput =>
                  simp only [hact] at hok
                  injection hok with h1 h2
                  rw [← h2]
                  simpa [htid] using hcur
              | End =>
                  simp only [hact] at hok
                  injection hok with h1 h2
                  rw [← h2]
                  simpa [htid] using hcur
              | GoBack =>
                  simp only [hact] at hok
                  injection hok with h1 h2
                  rw [← h2]
                  simpa [htid] using hcur
              | GoTo target =>
                  simp only [hact] at hok
                  cases hmem : g.containsTask target with
                  | true =>
                      simp only [hmem, if_true] at hok
                      injection hok with h1 h2
                      rw [← h2]
                      simpa using hmem
                  | false =>
                      simp only [hmem] at hok
                      simp at hok

/-- Witness for C3: on `gChain` (whose two edges' endpoints are its tasks
"a" and "b"), a full `ContinueAndExecute` chain from "a" ends with
`current_task_id = "b"`, a task of the graph. -/
theorem C3_current_task_stays_in_graph_witness :
    gChain.containsTask
      ({ sessA with context := Context.new.set "k" (Value.str "v"),
                    status_message := none, current_task_id := "b" } : Session).current_task_id
      = true :=
  C3_current_task_stays_in_graph gChain 2 sessA
    ⟨some "v", ExecutionStatus.Completed⟩
    { sessA with context := Context.new.set "k" (Value.str "v"),
                 status_message := none, current_task_id := "b" }
    (by
      intro e he
      simp only [gChain, List.mem_singleton] at he
      subst he
      exact ⟨rfl, rfl⟩)
    rfl (by decide)

/-- A session at task "b" whose context holds `k = "v"`. -/
def sessB : Session :=
  { id := "s", graph_id := "default", current_task_id := "b",
    status_message := none, context := Context.new.set "k" (Value.str "v") }

/-- Counterexample to C1: the derived `Serialize`/`Deserialize` of `Session`
marks `context` with `#[serde(skip)]`, so the round-trip keeps `id`,
`graph_id` and `current_task_id` but replaces the whole Context by a fresh
empty one; executing the round-tripped session (task "b" reads the now-lost
key `k`) produces a different `ExecutionResult` than the original. -/
theorem C1_counterexample :
    ((Session.deserialize (Session.serialize sessB)).id = sessB.id
      ∧ (Session.deserialize (Session.serialize sessB)).graph_id = sessB.graph_id
      ∧ (Session.deserialize (Session.serialize sessB)).current_task_id
          = sessB.current_task_id)
    ∧ (Session.deserialize (Session.serialize sessB)).context ≠ sessB.context
    ∧ gChain.executeSession 1 (Session.deserialize (Session.serialize sessB)) ≠
        gChain.executeSession 1 sessB := by
  decide

/-- C1 (amended): serializing then deserializing a `Session` preserves
`id`, `graph_id`, `current_task_id` and `status_message`, but yields a
session whose context is the fresh empty `Context::new()` — `context` is
`#[serde(skip)]`; in particular, when the original session's context is
already the empty context, the round-tripped session executes exactly like
the original. -/
theorem C1_session_roundtrip_drops_context (s : Session) (g : Graph) (fuel : Nat) :
    Session.deserialize (Session.serialize s) = { s with context := Context.new }
    ∧ (s.context = Context.new →
        g.executeSession fuel (Session.deserialize (Session.serialize s)) =
          g.executeSession fuel s) := by
  constructor
  · rfl
  · intro h
    have h1 : Session.deserialize (Session.serialize s) = s := by
      have h2 : Session.deserialize (Session.serialize s) = { s with context := Context.new } :=
        rfl
      rw [h2, ← h]
    rw [h1]

/-- Witness for the amended C1 at `sessA`, whose context is empty: the
round-trip is the identity and re-execution agrees. -/
theorem C1_session_roundtrip_drops_context_witness :
    Session.deserialize (Session.serialize sessA) = { sessA with context := Context.new }
    ∧ gChain.executeSession 2 (Session.deserialize (Session.serialize sessA)) =
        gChain.executeSession 2 sessA :=
  ⟨(C1_session_roundtrip_drops_context sessA gChain 2).1,
   (C1_session_roundtrip_drops_context sessA gChain 2).2 rfl⟩

/-- The derived `Session::clone` is the identity on the value, its `context`
pointer included. -/
theorem SessionRef.clone_eq (s : SessionRef) : s.clone = s := rfl

/-- `InMemorySessionStorage::get` returns exactly the stored session: the
clone copies the `Arc` pointer of the context. -/
theorem SessionStore.get_eq_lookup (st : SessionStore) (id : String) :
    SessionStore.get st id = SessionStore.lookup st id := by
  unfold SessionStore.get
  cases SessionStore.lookup st id <;> rfl

theorem lookupKV_insertKV_self :
    ∀ (d : List (String × Value)) (k : String) (v : Value),
      lookupKV (insertKV d k v) k = some v
  | [], k, v => by simp [insertKV, lookupKV]
  | (k1, v1) :: rest, k, v => by
      by_cases hk : k1 = k
      · simp [insertKV, lookupKV, hk]
      · simp [insertKV, lookupKV, hk]
        exact lookupKV_insertKV_self rest k v

theorem getD_set_self {α : Type _} :
    ∀ (l : List α) (n : Nat) (a d : α), n < l.length → (l.set n a).getD n d = a
  | [], _, _, _, h => absurd h (by simp)
  | _ :: _, 0, _, _, _ => rfl
  | _ :: xs, n + 1, a, d, h => getD_set_self xs n a d (by simpa using h)

/-- Writing a key through a context pointer and reading the same key back
through the same (shared) pointer yields the written value. -/
theorem CtxHeap.readKV_writeKV_self (h : CtxHeap) (r : ContextRef) (k : String)
    (v : Value) (hr : r.ref < h.length) :
    CtxHeap.readKV (CtxHeap.writeKV h r k v) r k = some v := by
  unfold CtxHeap.readKV CtxHeap.writeKV
  rw [getD_set_self _ _ _ _ hr]
  exact lookupKV_insertKV_self _ _ _

/-- Session stored at pointer 0 of the context heap. -/
def sessRef0 : SessionRef :=
  { id := "s1", graph_id := "default", current_task_id := "a", context := ⟨0⟩ }

/-- Counterexample to C7: `InMemorySessionStorage::get` clones the session,
but `Context`'s derived `Clone` copies the `Arc` pointers, so the returned
session's context is the very pointer stored in the map (no deep copy);
before the mutation the key `k` is absent, and a write made through the
returned session's context is then readable through the stored session's
context — the mutation does affect the stored session. -/
theorem C7_counterexample :
    SessionStore.get (SessionStore.save [] sessRef0) "s1" = some sessRef0
    ∧ (SessionStore.lookup (SessionStore.save [] sessRef0) "s1").map SessionRef.context
        = some sessRef0.context
    ∧ CtxHeap.readKV [Context.new] sessRef0.context "k" = none
    ∧ CtxHeap.readKV (CtxHeap.writeKV [Context.new] sessRef0.context "k" (Value.str "v"))
        sessRef0.context "k" = some (Value.str "v") := by
  decide

/-- C7 (amended): `get(id)` returns a clone of the stored Session whose
Context shares the stored Session's `Arc`-backed state: the returned value
equals the stored one (pointer included), and a write through the returned
session's context is visible reading through that shared pointer — i.e.
through the stored session's context as well. -/
theorem C7_get_returns_aliasing_clone (st : SessionStore) (id : String) (s' : SessionRef)
    (hget : SessionStore.get st id = some s') :
    SessionStore.lookup st id = some s'
    ∧ ∀ (h : CtxHeap) (k : String) (v : Value), s'.context.ref < h.length →
        CtxHeap.readKV (CtxHeap.writeKV h s'.context k v) s'.context k = some v := by
  constructor
  · rw [← SessionStore.get_eq_lookup]
    exact hget
  · intro h k v hr
    exact CtxHeap.readKV_writeKV_self h s'.context k v hr

/-- Witness for the amended C7 on the one-session store. -/
theorem C7_get_returns_aliasing_clone_witness :
    SessionStore.lookup (SessionStore.save [] sessRef0) "s1" = some sessRef0
    ∧ CtxHeap.readKV (CtxHeap.writeKV [Context.new] sessRef0.context "x" (Value.num 7))
        sessRef0.context "x" = some (Value.num 7) :=
  ⟨(C7_get_returns_aliasing_clone (SessionStore.save [] sessRef0) "s1" sessRef0 rfl).1,
   (C7_get_returns_aliasing_clone (SessionStore.save [] sessRef0) "s1" sessRef0 rfl).2
      [Context.new] "x" (Value.num 7) (by decide)⟩

end GraphFlow
